import Mathlib

/-!
# Overlax server — verification of the deadline scanner, dedup ledger,
identity-binding registry, task routes and (spec-modelled) calendar mirror.

Shallow embedding of the Node/Express server (`server/index.js`, the most
complete snapshot, together with `telegram.js`).  JS `Date` parsing is kept
abstract as a parameter `parseDate : String → Option Int` (milliseconds since
epoch; `none` models an Invalid Date / NaN, for which every `<`/`<=`
comparison in JS is false).  Per-chat HTTP send outcomes are a parameter
`sendOk`, and transient Mongo query failures per owner are a parameter
`queryFails` (a `true` models the query throwing, which the single
`try/catch` wrapping the whole tick then catches).
-/

namespace Overlax

/-- One record of `chatIds.json`: `{ uid, chatId }`. -/
structure ChatBinding where
  uid : String
  chatId : String
deriving DecidableEq, Repr

/-- A task document of the `tasks` collection (the fields the reminder and
route code reads).  `id` is `_id.toString()`. -/
structure Task where
  id : String
  uid : String
  title : String
  category : String
  deadline : String
  completed : Bool
  file : Option String
deriving DecidableEq, Repr

/-- One attempted Telegram send: the chat id and whether `axios.post`
succeeded (a failure is caught and logged inside the per-chat loop). -/
structure SendAttempt where
  chatId : String
  ok : Bool
deriving DecidableEq, Repr

/-- One dispatch event of the scanner: the task id and the deadline string
the task had when it was dispatched, with the per-chat send attempts. -/
structure Dispatch where
  taskId : String
  deadline : String
  sends : List SendAttempt
deriving DecidableEq, Repr

/-- `2 * 60 * 1000` — the scanner window width in milliseconds
(`twoMinsLater = new Date(now.getTime() + 2 * 60 * 1000)`). -/
def twoMinutesMs : Int := 2 * 60 * 1000

/-- JS `deadline > now && deadline <= twoMinsLater` where
`deadline = new Date(task.deadline)`; an Invalid Date (NaN) makes both
comparisons false. -/
def isInWindow (parseDate : String → Option Int) (now : Int) (deadline : String) : Bool :=
  match parseDate deadline with
  | none => false
  | some d => decide (now < d) && decide (d ≤ now + twoMinutesMs)

/-- `chatIds.filter((c) => c.uid === taskUid).map((c) => c.chatId)`. -/
def userChatIds (chatIds : List ChatBinding) (taskUid : String) : List String :=
  (chatIds.filter (fun c => c.uid == taskUid)).map (fun c => c.chatId)

/-- `sendTelegramNotification(task, taskUid)`: resolves the user's chat ids
and attempts one send per chat id; each send is individually try/caught, so
the function never throws and a zero-chat user is a no-op.  (The message
text, built from the task's title/category/deadline, is not modelled.) -/
def sendTelegramNotification (chatIds : List ChatBinding) (sendOk : String → Bool)
    (taskUid : String) : List SendAttempt :=
  (userChatIds chatIds taskUid).map (fun cid => ⟨cid, sendOk cid⟩)

/-- The inner task loop of `triggerReminderCheck`: for each task of one
user's query result, compute `isInWindow` and
`notAlreadySent = !global.notifiedTasks.includes(taskId)`; if both hold,
await the Telegram send and then `global.notifiedTasks.push(taskId)`.
Returns the updated `notifiedTasks` list and the dispatches made. -/
def processTasks (parseDate : String → Option Int) (now : Int)
    (chatIds : List ChatBinding) (sendOk : String → Bool) (uid : String) :
    List Task → List String → List String × List Dispatch
  | [], notified => (notified, [])
  | t :: ts, notified =>
    if isInWindow parseDate now t.deadline && !(notified.contains t.id) then
      let rest := processTasks parseDate now chatIds sendOk uid ts (notified ++ [t.id])
      (rest.1, ⟨t.id, t.deadline, sendTelegramNotification chatIds sendOk uid⟩ :: rest.2)
    else
      processTasks parseDate now chatIds sendOk uid ts notified

/-- `tasks().find({ uid: user.uid, completed: false }).toArray()`. -/
def userQuery (store : List Task) (uid : String) : List Task :=
  store.filter (fun t => t.uid == uid && t.completed == false)

/-- The varying inputs of one scanner tick: the current time, the result of
`users().find({})`, the task store, the chat bindings, the per-chat send
outcomes and the per-owner transient query failures. -/
structure TickInput where
  now : Int
  uids : List String
  store : List Task
  chatIds : List ChatBinding
  sendOk : String → Bool
  queryFails : String → Bool

/-- The owner loop of `triggerReminderCheck`.  The whole loop lives inside
one `try { ... } catch`, so a throwing `tasks().find(...)` for one owner
aborts the remaining owners of the tick (the catch only logs; the tick
itself returns normally). -/
def runUsers (parseDate : String → Option Int) (now : Int) (chatIds : List ChatBinding)
    (sendOk : String → Bool) (store : List Task) (queryFails : String → Bool) :
    List String → List String → List String × List Dispatch
  | [], notified => (notified, [])
  | u :: us, notified =>
    if queryFails u then (notified, [])
    else
      let r1 := processTasks parseDate now chatIds sendOk u (userQuery store u) notified
      let r2 := runUsers parseDate now chatIds sendOk store queryFails us r1.1
      (r2.1, r1.2 ++ r2.2)

/-- One full `triggerReminderCheck` tick: window computation, owner
enumeration, per-task check and dispatch.  Takes and returns the in-memory
`global.notifiedTasks` ledger. -/
def tick (parseDate : String → Option Int) (inp : TickInput) (notified : List String) :
    List String × List Dispatch :=
  runUsers parseDate inp.now inp.chatIds inp.sendOk inp.store inp.queryFails inp.uids notified

/-- A run of consecutive cron ticks within one process lifetime: the ledger
persists across ticks (`global.notifiedTasks`), and the trace records each
tick's dispatches. -/
def runTrace (parseDate : String → Option Int) :
    List TickInput → List String → List (List Dispatch)
  | [], _ => []
  | i :: is, notified =>
    let r := tick parseDate i notified
    r.2 :: runTrace parseDate is r.1

/-! ## Deadline normalization (task create vs. task update) -/

/-- JS `s.includes("T")` (a one-character needle): does the string contain
the character? -/
def containsChar (s : String) (c : Char) : Bool :=
  s.data.contains c

/-- `POST /api/tasks`:
`let finalDeadline = deadline; if (!deadline.includes("T")) finalDeadline += "T09:00:00";`
(the route has already rejected a missing/empty `deadline` with a 400). -/
def postNormalizeDeadline (deadline : String) : String :=
  if containsChar deadline 'T' then deadline else deadline ++ "T09:00:00"

/-- `PATCH /api/tasks/:id`:
`if (deadline && !deadline.includes("T")) finalDeadline = deadline + "T00:00:00.000Z";
else if (deadline) finalDeadline = new Date(deadline).toISOString();`
`isoOf` abstracts `new Date(s).toISOString()`; an empty string is JS-falsy
and is left untouched. -/
def patchNormalizeDeadline (isoOf : String → String) (deadline : String) : String :=
  if deadline ≠ "" && !(containsChar deadline 'T') then deadline ++ "T00:00:00.000Z"
  else if deadline ≠ "" then isoOf deadline
  else deadline

/-! ## Identity-binding registry (`chatIds.json`) -/

/-- Replace the uid of the first binding whose `chatId` matches (the JS
mutates the object returned by `chatIds.find(...)` in place). -/
def updateFirstUid : List ChatBinding → String → String → List ChatBinding
  | [], _, _ => []
  | c :: cs, chatId, uid =>
    if c.chatId == chatId then ⟨uid, c.chatId⟩ :: cs
    else c :: updateFirstUid cs chatId uid

/-- `bot.start` in `telegram.js`: `payload = ctx.payload?.trim()`; `none`
models a JS-falsy payload (absent command argument or empty string).
If the chat id already has an entry: a different supplied uid overwrites it
(saved), otherwise nothing changes.  A new chat id is appended with the
supplied uid or the `"TEMP_NO_UID"` sentinel. -/
def applyBotStart (chats : List ChatBinding) (chatId : String) (payload : Option String) :
    List ChatBinding :=
  match chats.find? (fun c => c.chatId == chatId) with
  | some existing =>
    match payload with
    | some uid => if existing.uid == uid then chats else updateFirstUid chats chatId uid
    | none => chats
  | none => chats ++ [⟨payload.getD "TEMP_NO_UID", chatId⟩]

/-- `POST /api/connect-telegram`: a chat id that is already present is
rejected with `400 "Already connected"` and nothing is written; otherwise
`{ uid, chatId }` is appended.  The `Bool` is the success flag. -/
def applyApiConnect (chats : List ChatBinding) (uid chatId : String) :
    List ChatBinding × Bool :=
  if chats.any (fun c => c.chatId == chatId) then (chats, false)
  else (chats ++ [⟨uid, chatId⟩], true)

/-- The owner id currently stored for a channel id (first entry wins, as in
`chatIds.find(...)`). -/
def resolveUid (chatId : String) (chats : List ChatBinding) : Option String :=
  (chats.find? (fun c => c.chatId == chatId)).map (fun c => c.uid)

/-- Apply a sequence of bot `/start` binds, oldest first.  Each element is
`(chatId, payload)`. -/
def applyBotOps : List ChatBinding → List (String × Option String) → List ChatBinding
  | chats, [] => chats
  | chats, (c, p) :: rest => applyBotOps (applyBotStart chats c p) rest

/-- The owner id of the most recent bind in `ops` (oldest first) that
targets channel `c` and supplies an owner id. -/
def lastSuppliedUid (c : String) : List (String × Option String) → Option String
  | [] => none
  | (c', p) :: rest =>
    match lastSuppliedUid c rest with
    | some u => some u
    | none => if c' == c then p else none

/-! ## Task routes (`PATCH /api/tasks/:id`, `DELETE /api/tasks/:id`) -/

/-- Route outcome: `400 Invalid ID`, `404 Not found`, or success. -/
inductive RouteStatus where
  | badRequest
  | notFound
  | ok
deriving DecidableEq, Repr

/-- `tasks().findOne({ _id: new ObjectId(id), uid: req.user.uid })`. -/
def findTask (store : List Task) (id uid : String) : Option Task :=
  store.find? (fun t => t.id == id && t.uid == uid)

/-- The non-`_id` fields a `PATCH` body may carry. -/
structure TaskPatch where
  title : String
  category : String
  deadline : Option String
  file : Option String
deriving Repr

/-- The `$set` document of the `PATCH` route applied to the matched task:
`_id`, `uid` and `completed` are never part of the `$set`; the deadline is
normalized by `patchNormalizeDeadline`; without a new upload the stored
`file` is re-written unchanged (`currentTask.file`).  (The corner where the
body omits a field entirely, making `$set` carry `undefined`, is not relied
on by any theorem below.) -/
def applyTaskPatch (isoOf : String → String) (p : TaskPatch) (t : Task) : Task :=
  ⟨t.id, t.uid, p.title, p.category,
    match p.deadline with
    | some d => patchNormalizeDeadline isoOf d
    | none => t.deadline,
    t.completed,
    match p.file with
    | some f => some f
    | none => t.file⟩

/-- `tasks().updateOne({ _id: new ObjectId(id) }, { $set: ... })`: update
the first document whose `_id` matches. -/
def updateFirstTask : List Task → String → (Task → Task) → List Task
  | [], _, _ => []
  | t :: ts, id, f => if t.id == id then f t :: ts else t :: updateFirstTask ts id f

/-- `PATCH /api/tasks/:id`: `400` when `ObjectId.isValid(id)` fails, `404`
when no task of the caller has that `_id`, otherwise `updateOne` by `_id`. -/
def patchTaskRoute (store : List Task) (isValidId : Bool) (id uid : String)
    (isoOf : String → String) (p : TaskPatch) : RouteStatus × List Task :=
  if !isValidId then (.badRequest, store)
  else
    match findTask store id uid with
    | none => (.notFound, store)
    | some _ => (.ok, updateFirstTask store id (applyTaskPatch isoOf p))

/-- `DELETE /api/tasks/:id`: `400` on an invalid id, `404` when no task of
the caller has that `_id`, otherwise `deleteOne({ _id })` removes the first
document with that `_id`. -/
def deleteTaskRoute (store : List Task) (isValidId : Bool) (id uid : String) :
    RouteStatus × List Task :=
  if !isValidId then (.badRequest, store)
  else
    match findTask store id uid with
    | none => (.notFound, store)
    | some _ => (.ok, store.eraseP (fun t => t.id == id))

/-! ## Calendar mirror (modelled from the spec) -/

/-- Modelled from the spec: a task record as seen by the Calendar Mirror,
carrying the optional stored external calendar event id (`externalEventId`,
spec §3); the calendar-mirror code itself is absent from the source tree. -/
structure MirrorTask where
  id : String
  uid : String
  externalEventId : Option String
deriving DecidableEq, Repr

/-- Modelled from the spec: `onDelete(taskId, eventId)` of §4.5 — "if an
event id is present, request its deletion; on failure, log only".  Returns
the list of event ids for which a calendar delete call is issued. -/
def calendarOnDelete (eventId : Option String) : List String :=
  match eventId with
  | some e => [e]
  | none => []

/-- Modelled from the spec: the task-delete request path of §6 — the local
delete (find by id and owner, 404 when absent, remove the task) invokes
`CalendarMirror.onDelete` with the deleted task's stored event id; local
deletion proceeds regardless of the calendar outcome.  Returns the route
outcome, the remaining store, and the calendar delete calls made. -/
def deleteTaskWithMirror (store : List MirrorTask) (id uid : String) :
    RouteStatus × List MirrorTask × List String :=
  match store.find? (fun t => t.id == id && t.uid == uid) with
  | none => (.notFound, store, [])
  | some t => (.ok, store.eraseP (fun t' => t'.id == id), calendarOnDelete t.externalEventId)

/-! ## Concrete sample data (used by witnesses and counterexamples) -/

/-- A concrete instance of the abstract JS `Date` parser, for evaluating
the model on closed inputs: two well-formed deadline strings (already
carrying a time component, hence left unchanged by both normalization
paths) and everything else an Invalid Date. -/
def sampleParse (s : String) : Option Int :=
  if s == "T100" then some 100000
  else if s == "T160" then some 160000
  else none

/-- No per-owner store failures. -/
def noFail : String → Bool := fun _ => false

/-- Every Telegram send succeeds. -/
def allSendOk : String → Bool := fun _ => true

def taskA : Task := ⟨"t1", "u1", "Essay", "Academic", "T100", false, none⟩

def taskB : Task := ⟨"t2", "u1", "Quiz", "Academic", "T100", false, none⟩

/-- `taskA` after `PATCH` moved its deadline to `"T160"`. -/
def taskAedited : Task := ⟨"t1", "u1", "Essay", "Academic", "T160", false, none⟩

def taskU2 : Task := ⟨"t2", "u2", "Lab", "Work", "T100", false, none⟩

def taskBadDeadline : Task := ⟨"t3", "u1", "Gym", "Personal", "nonsense", false, none⟩

def taskDone : Task := ⟨"t4", "u1", "Read", "Personal", "T100", true, none⟩

def tickT0 : TickInput := ⟨0, ["u1"], [taskA], [], allSendOk, noFail⟩

def tickT60 : TickInput := ⟨60000, ["u1"], [taskA, taskB], [], allSendOk, noFail⟩

/-- The second tick of the deadline-edit scenario: `taskA`'s deadline was
edited to `"T160"` between the ticks. -/
def tickT60edited : TickInput := ⟨60000, ["u1"], [taskAedited], [], allSendOk, noFail⟩

/-- A tick whose first owner's task query throws while the second owner
has a qualifying task. -/
def tickFailingQuery : TickInput :=
  ⟨0, ["u1", "u2"], [taskU2], [], allSendOk, fun u => u == "u1"⟩

/-- The same tick with no store failure. -/
def tickHealthyQuery : TickInput := ⟨0, ["u1", "u2"], [taskU2], [], allSendOk, noFail⟩

/-! ## Helper lemmas about the scanner -/

/-- The ledger after the task loop is the ledger before followed by the ids
of exactly the dispatches made. -/
theorem processTasks_fst (pd : String → Option Int) (now : Int) (chats : List ChatBinding)
    (f : String → Bool) (u : String) (ts : List Task) :
    ∀ n : List String,
      (processTasks pd now chats f u ts n).1
        = n ++ (processTasks pd now chats f u ts n).2.map (fun d => d.taskId) := by
  induction ts with
  | nil => intro n; simp [processTasks]
  | cons t ts ih =>
    intro n
    simp only [processTasks]
    split
    · simp [ih (n ++ [t.id])]
    · exact ih n

/-- Every dispatch of the task loop comes from a task of the processed
list, records that task's deadline, and was not in the incoming ledger. -/
theorem processTasks_dispatch_src (pd : String → Option Int) (now : Int)
    (chats : List ChatBinding) (f : String → Bool) (u : String) (ts : List Task) :
    ∀ (n : List String) (d : Dispatch), d ∈ (processTasks pd now chats f u ts n).2 →
      ∃ t, t ∈ ts ∧ d.taskId = t.id ∧ d.deadline = t.deadline ∧ d.taskId ∉ n := by
  induction ts with
  | nil => intro n d hd; simp [processTasks] at hd
  | cons t ts ih =>
    intro n d hd
    simp only [processTasks] at hd
    split at hd
    · rename_i hcond
      rcases List.mem_cons.mp hd with hhead | htail
      · subst hhead
        refine ⟨t, List.mem_cons_self .., rfl, rfl, ?_⟩
        have hnc : (n.contains t.id) = false := by
          rcases Bool.and_eq_true .. |>.mp hcond with ⟨_, hr⟩
          simpa using hr
        simpa using hnc
      · rcases ih (n ++ [t.id]) d htail with ⟨t', ht', hid, hdl, hnot⟩
        exact ⟨t', List.mem_cons_of_mem _ ht', hid, hdl, fun hmem => hnot (by simp [hmem])⟩
    · rcases ih n d hd with ⟨t', ht', hid, hdl, hnot⟩
      exact ⟨t', List.mem_cons_of_mem _ ht', hid, hdl, hnot⟩

/-- The ledger update of the task loop does not depend on the chat bindings
nor on the per-chat send outcomes. -/
theorem processTasks_fst_indep (pd : String → Option Int) (now : Int) (u : String)
    (chats chats' : List ChatBinding) (f f' : String → Bool) (ts : List Task) :
    ∀ n : List String,
      (processTasks pd now chats f u ts n).1 = (processTasks pd now chats' f' u ts n).1 := by
  induction ts with
  | nil => intro n; simp [processTasks]
  | cons t ts ih =>
    intro n
    simp only [processTasks]
    split
    · exact ih (n ++ [t.id])
    · exact ih n

/-- `processTasks_fst` lifted to the owner loop. -/
theorem runUsers_fst (pd : String → Option Int) (now : Int) (chats : List ChatBinding)
    (f : String → Bool) (store : List Task) (qf : String → Bool) (us : List String) :
    ∀ n : List String,
      (runUsers pd now chats f store qf us n).1
        = n ++ (runUsers pd now chats f store qf us n).2.map (fun d => d.taskId) := by
  induction us with
  | nil => intro n; simp [runUsers]
  | cons u us ih =>
    intro n
    simp only [runUsers]
    split
    · simp
    · simp [ih, processTasks_fst, List.append_assoc]

/-- Every dispatch of a tick's owner loop comes from a stored,
non-completed task of one of the owners and was not already in the ledger. -/
theorem runUsers_dispatch_src (pd : String → Option Int) (now : Int)
    (chats : List ChatBinding) (f : String → Bool) (store : List Task)
    (qf : String → Bool) (us : List String) :
    ∀ (n : List String) (d : Dispatch), d ∈ (runUsers pd now chats f store qf us n).2 →
      ∃ t, t ∈ store ∧ t.completed = false ∧ d.taskId = t.id ∧ d.deadline = t.deadline ∧
        d.taskId ∉ n := by
  induction us with
  | nil => intro n d hd; simp [runUsers] at hd
  | cons u us ih =>
    intro n d hd
    simp only [runUsers] at hd
    split at hd
    · simp at hd
    · rcases List.mem_append.mp hd with h1 | h2
      · rcases processTasks_dispatch_src pd now chats f u (userQuery store u) n d h1 with
          ⟨t, ht, hid, hdl, hnot⟩
        have hq := List.mem_filter.mp ht
        rcases Bool.and_eq_true .. |>.mp hq.2 with ⟨_, hcomp⟩
        exact ⟨t, hq.1, by simpa using hcomp, hid, hdl, hnot⟩
      · rcases ih _ d h2 with ⟨t, ht, hcomp, hid, hdl, hnot⟩
        refine ⟨t, ht, hcomp, hid, hdl, fun hmem => hnot ?_⟩
        rw [processTasks_fst]
        exact List.mem_append_left _ hmem

/-- An id already in the ledger is never dispatched by any later tick of
the same run. -/
theorem runTrace_not_mem (pd : String → Option Int) (ticks : List TickInput) :
    ∀ (n : List String) (x : String), x ∈ n →
      ∀ l ∈ runTrace pd ticks n, ∀ d ∈ l, d.taskId ≠ x := by
  induction ticks with
  | nil => intro n x _ l hl; simp [runTrace] at hl
  | cons t ts ih =>
    intro n x hx l hl d hd
    simp only [runTrace] at hl
    rcases List.mem_cons.mp hl with hhead | htail
    · subst hhead
      rcases runUsers_dispatch_src pd t.now t.chatIds t.sendOk t.store t.queryFails t.uids n d hd
        with ⟨_, _, _, _, _, hnot⟩
      exact fun hEq => hnot (hEq ▸ hx)
    · refine ih (tick pd t n).1 x ?_ l htail d hd
      have hfst : (tick pd t n).1 = n ++ ((tick pd t n).2).map (fun d => d.taskId) :=
        runUsers_fst pd t.now t.chatIds t.sendOk t.store t.queryFails t.uids n
      rw [hfst]
      exact List.mem_append_left _ hx

/-- C1: for every task and every sequence of scanner ticks within a single
process run, once a tick has dispatched for a task with a given deadline,
no later tick of the same run dispatches again for that task while its
deadline is unchanged (in fact the in-memory ledger keys on the task id
alone, so a later dispatch for the same task never happens at all). -/
theorem scanner_no_duplicate_dispatch (pd : String → Option Int)
    (ticks : List TickInput) (n₀ : List String) :
    ∀ (i j : Nat) (hij : i < j) (hj : j < (runTrace pd ticks n₀).length)
      (d d' : Dispatch),
      d ∈ (runTrace pd ticks n₀).get ⟨i, Nat.lt_trans hij hj⟩ →
      d' ∈ (runTrace pd ticks n₀).get ⟨j, hj⟩ →
      d'.deadline = d.deadline → d'.taskId ≠ d.taskId := by
  induction ticks generalizing n₀ with
  | nil => intro i j hij hj; simp [runTrace] at hj
  | cons t ts ih =>
    intro i j hij hj d d' hd hd' _
    simp only [runTrace] at hd hd' hj
    match i, j with
    | 0, 0 => exact absurd hij (by omega)
    | 0, j' + 1 =>
      have hd0 : d ∈ (tick pd t n₀).2 := hd
      have hmemfst : d.taskId ∈ (tick pd t n₀).1 := by
        have hfst : (tick pd t n₀).1 = n₀ ++ ((tick pd t n₀).2).map (fun x => x.taskId) :=
          runUsers_fst pd t.now t.chatIds t.sendOk t.store t.queryFails t.uids n₀
        rw [hfst]
        exact List.mem_append_right _ (List.mem_map_of_mem _ hd0)
      have hj' : j' < (runTrace pd ts (tick pd t n₀).1).length :=
        Nat.lt_of_succ_lt_succ (by simpa using hj)
      have hl : (runTrace pd ts (tick pd t n₀).1).get ⟨j', hj'⟩
          ∈ runTrace pd ts (tick pd t n₀).1 := List.get_mem _ j' hj'
      exact runTrace_not_mem pd ts (tick pd t n₀).1 d.taskId hmemfst _ hl d' hd'
    | i' + 1, 0 => exact absurd hij (by omega)
    | i' + 1, j' + 1 =>
      have hj' : j' + 1 < ((tick pd t n₀).2 :: runTrace pd ts (tick pd t n₀).1).length := hj
      exact ih (tick pd t n₀).1 i' j' (Nat.lt_of_succ_lt_succ hij)
        (Nat.lt_of_succ_lt_succ (by simpa using hj)) d d' hd hd' (by assumption)

/-- Witness for C1: a run of two ticks; the first dispatches `taskA`, the
second dispatches the newly created `taskB` which carries the very same
deadline value, and the theorem yields that the two dispatches concern
different tasks. -/
theorem scanner_no_duplicate_dispatch_witness :
    (⟨"t1", "T100", []⟩ : Dispatch)
        ∈ (runTrace sampleParse [tickT0, tickT60] []).get ⟨0, by decide⟩ ∧
    (⟨"t2", "T100", []⟩ : Dispatch)
        ∈ (runTrace sampleParse [tickT0, tickT60] []).get ⟨1, by decide⟩ ∧
    (⟨"t2", "T100", []⟩ : Dispatch).taskId ≠ (⟨"t1", "T100", []⟩ : Dispatch).taskId :=
  ⟨by decide, by decide,
    scanner_no_duplicate_dispatch sampleParse [tickT0, tickT60] [] 0 1 (by decide) (by decide)
      ⟨"t1", "T100", []⟩ ⟨"t2", "T100", []⟩ (by decide) (by decide) (by decide)⟩

/-- C2 (code bug exhibit): `taskA` is dispatched on the first tick for
deadline `"T100"`; a `PATCH` then moves its deadline to `"T160"`, which the
second tick's window provably contains — yet the second tick dispatches
nothing, because the dedup ledger `global.notifiedTasks` keys on the task
id alone and `PATCH` never clears it.  The spec requires the changed
deadline to act as a distinct dedup key. -/
theorem edited_deadline_not_renotified :
    (patchTaskRoute [taskA] true "t1" "u1" (fun s => s)
        ⟨"Essay", "Academic", some "T160", none⟩) = (.ok, [taskAedited]) ∧
    isInWindow sampleParse 60000 taskAedited.deadline = true ∧
    runTrace sampleParse [tickT0, tickT60edited] []
      = [[⟨"t1", "T100", []⟩], []] := by
  refine ⟨by decide, by decide, by decide⟩

/-- C3: on a tick at time `now` with window width `Δ = twoMinutesMs`, a
non-notified, non-completed task whose deadline parses to exactly
`now + Δ` is dispatched, while one whose deadline parses to exactly `now`
is not: the window is the half-open interval `(now, now + Δ]`. -/
theorem window_boundary (pd : String → Option Int) (now : Int) (t : Task)
    (notified : List String) (chats : List ChatBinding) (f : String → Bool)
    (hc : t.completed = false) (hn : notified.contains t.id = false) :
    (pd t.deadline = some (now + twoMinutesMs) →
      (tick pd ⟨now, [t.uid], [t], chats, f, fun _ => false⟩ notified).2
        = [⟨t.id, t.deadline, sendTelegramNotification chats f t.uid⟩]) ∧
    (pd t.deadline = some now →
      (tick pd ⟨now, [t.uid], [t], chats, f, fun _ => false⟩ notified).2 = []) := by
  constructor
  · intro h
    have hwin : isInWindow pd now t.deadline = true := by
      simp only [isInWindow, h, twoMinutesMs]
      simp only [Bool.and_eq_true, decide_eq_true_eq]
      omega
    have hn' : t.id ∉ notified := by simpa using hn
    simp [tick, runUsers, userQuery, processTasks, hwin, hn', hc]
  · intro h
    have hwin : isInWindow pd now t.deadline = false := by
      simp [isInWindow, h]
    simp [tick, runUsers, userQuery, processTasks, hwin, hc]

/-- Witness for C3: with the sample parser, `taskA` (deadline value
`100000`) is dispatched by a tick at `now = -20000` (so that the deadline
sits exactly at the window's upper edge) and is not dispatched by a tick at
`now = 100000` (deadline exactly at `now`). -/
theorem window_boundary_witness :
    (tick sampleParse ⟨-20000, ["u1"], [taskA], [], allSendOk, fun _ => false⟩ []).2
      = [⟨"t1", "T100", sendTelegramNotification [] allSendOk "u1"⟩] ∧
    (tick sampleParse ⟨100000, ["u1"], [taskA], [], allSendOk, fun _ => false⟩ []).2 = [] :=
  ⟨(window_boundary sampleParse (-20000) taskA [] [] allSendOk (by decide) (by decide)).1
      (by decide),
    (window_boundary sampleParse 100000 taskA [] [] allSendOk (by decide) (by decide)).2
      (by decide)⟩

/-- C5 (counterexample): the claim says a store query failure for one owner
does not abort the processing of the remaining owners of the same tick.
Concretely: owner `u1`'s task query throws while owner `u2` has a
qualifying task; the tick dispatches nothing at all, although the very same
tick with a healthy store dispatches `u2`'s task. -/
theorem tick_abort_counterexample :
    tick sampleParse tickFailingQuery [] = ([], []) ∧
    tick sampleParse tickHealthyQuery [] = (["t2"], [⟨"t2", "T100", []⟩]) := by
  refine ⟨by decide, by decide⟩

/-- Dropping the tasks whose stored deadline does not parse changes nothing
in the task loop: a malformed deadline only skips that task. -/
theorem processTasks_filter_parsable (pd : String → Option Int) (now : Int)
    (chats : List ChatBinding) (f : String → Bool) (u : String) (ts : List Task) :
    ∀ n : List String,
      processTasks pd now chats f u (ts.filter (fun t => (pd t.deadline).isSome)) n
        = processTasks pd now chats f u ts n := by
  induction ts with
  | nil => intro n; simp
  | cons t ts ih =>
    intro n
    by_cases hp : (pd t.deadline).isSome = true
    · have hf : (t :: ts).filter (fun t => (pd t.deadline).isSome)
          = t :: ts.filter (fun t => (pd t.deadline).isSome) := by
        simp [List.filter_cons, hp]
      rw [hf]
      simp only [processTasks]
      split
      · simp [ih]
      · exact ih n
    · have hnone : pd t.deadline = none := Option.not_isSome_iff_eq_none.mp hp
      have hwin : isInWindow pd now t.deadline = false := by simp [isInWindow, hnone]
      have hf : (t :: ts).filter (fun t => (pd t.deadline).isSome)
          = ts.filter (fun t => (pd t.deadline).isSome) := by
        simp [List.filter_cons, hnone]
      have hr : processTasks pd now chats f u (t :: ts) n
          = processTasks pd now chats f u ts n := by
        simp [processTasks, hwin]
      rw [hf, ih, hr]

/-- `userQuery` commutes with dropping unparsable-deadline tasks. -/
theorem userQuery_filter_parsable (pd : String → Option Int) (store : List Task)
    (u : String) :
    userQuery (store.filter (fun t => (pd t.deadline).isSome)) u
      = (userQuery store u).filter (fun t => (pd t.deadline).isSome) := by
  simp only [userQuery, List.filter_filter]
  exact List.filter_congr (fun t _ => Bool.and_comm ..)

/-- `processTasks_filter_parsable` lifted to the whole owner loop. -/
theorem runUsers_filter_parsable (pd : String → Option Int) (now : Int)
    (chats : List ChatBinding) (f : String → Bool) (store : List Task)
    (qf : String → Bool) (us : List String) :
    ∀ n : List String,
      runUsers pd now chats f (store.filter (fun t => (pd t.deadline).isSome)) qf us n
        = runUsers pd now chats f store qf us n := by
  induction us with
  | nil => intro n; simp [runUsers]
  | cons u us ih =>
    intro n
    simp only [runUsers]
    split
    · rfl
    · rw [userQuery_filter_parsable, processTasks_filter_parsable, ih]

/-- A throwing task query for one owner ends the tick there: the owners
after the first failing query are not processed (the single `try/catch`
around the whole loop catches the exception and the tick returns). -/
theorem runUsers_abort (pd : String → Option Int) (now : Int) (chats : List ChatBinding)
    (f : String → Bool) (store : List Task) (qf : String → Bool) :
    ∀ (us₁ : List String) (u : String) (us₂ : List String) (n : List String),
      (∀ v ∈ us₁, qf v = false) → qf u = true →
      runUsers pd now chats f store qf (us₁ ++ u :: us₂) n
        = runUsers pd now chats f store qf us₁ n := by
  intro us₁
  induction us₁ with
  | nil =>
    intro u us₂ n _ hu
    simp [runUsers, hu]
  | cons v us₁ ih =>
    intro u us₂ n hv hu
    have hvf : qf v = false := hv v (List.mem_cons_self ..)
    have heq : runUsers pd now chats f store qf (us₁.append (u :: us₂))
          ((processTasks pd now chats f v (userQuery store v) n).1)
        = runUsers pd now chats f store qf us₁
          ((processTasks pd now chats f v (userQuery store v) n).1) :=
      ih u us₂ _ (fun w hw => hv w (List.mem_cons_of_mem _ hw)) hu
    simp only [List.cons_append, runUsers, hvf, Bool.false_eq_true, if_false]
    rw [heq]

/-- C5 (amended): within one tick, a malformed stored deadline only skips
that task — removing all unparsable-deadline tasks from the store changes
nothing — and the tick itself never crashes; but a store query failure for
one owner aborts the rest of the tick: with failure-free owners before it,
a failing owner makes the tick's outcome equal that of the prefix of owners
before the failure. -/
theorem tick_fault_isolation (pd : String → Option Int) :
    (∀ (inp : TickInput) (n : List String),
      tick pd ⟨inp.now, inp.uids, inp.store.filter (fun t => (pd t.deadline).isSome),
          inp.chatIds, inp.sendOk, inp.queryFails⟩ n = tick pd inp n) ∧
    (∀ (now : Int) (chats : List ChatBinding) (f : String → Bool) (store : List Task)
        (qf : String → Bool) (us₁ : List String) (u : String) (us₂ : List String)
        (n : List String),
      (∀ v ∈ us₁, qf v = false) → qf u = true →
      runUsers pd now chats f store qf (us₁ ++ u :: us₂) n
        = runUsers pd now chats f store qf us₁ n) := by
  constructor
  · intro inp n
    exact runUsers_filter_parsable pd inp.now inp.chatIds inp.sendOk inp.store
      inp.queryFails inp.uids n
  · intro now chats f store qf us₁ u us₂ n h1 h2
    exact runUsers_abort pd now chats f store qf us₁ u us₂ n h1 h2

/-- Witness for C5 (amended): a store holding a malformed-deadline task and
a healthy one gives the same tick with or without the malformed task; and a
failing query for `u1` placed after the healthy owner `u2` truncates the
owner loop right there. -/
theorem tick_fault_isolation_witness :
    tick sampleParse ⟨0, ["u1"],
        List.filter (fun t => (sampleParse t.deadline).isSome) [taskBadDeadline, taskA],
        [], allSendOk, noFail⟩ []
      = tick sampleParse ⟨0, ["u1"], [taskBadDeadline, taskA], [], allSendOk, noFail⟩ [] ∧
    runUsers sampleParse 0 [] allSendOk [taskU2] (fun u => u == "u1")
        (["u2"] ++ "u1" :: ["u3"]) []
      = runUsers sampleParse 0 [] allSendOk [taskU2] (fun u => u == "u1") ["u2"] [] :=
  ⟨(tick_fault_isolation sampleParse).1 ⟨0, ["u1"], [taskBadDeadline, taskA], [],
      allSendOk, noFail⟩ [],
    (tick_fault_isolation sampleParse).2 0 [] allSendOk [taskU2] (fun u => u == "u1")
      ["u2"] "u1" ["u3"] [] (by decide) (by decide)⟩

/-- C8: the tasks a tick considers for an owner are exactly that owner's
stored tasks with `completed = false` (the Mongo query filter), and every
dispatched task is a stored, non-completed one — a completed task is never
dispatched, whatever its deadline. -/
theorem completed_tasks_never_dispatched (pd : String → Option Int) (inp : TickInput)
    (n : List String) :
    (∀ (u : String) (t : Task),
      t ∈ userQuery inp.store u ↔ t ∈ inp.store ∧ t.uid = u ∧ t.completed = false) ∧
    (∀ d ∈ (tick pd inp n).2,
      ∃ t, t ∈ inp.store ∧ t.completed = false ∧ d.taskId = t.id) := by
  constructor
  · intro u t
    simp [userQuery, List.mem_filter, and_assoc]
  · intro d hd
    rcases runUsers_dispatch_src pd inp.now inp.chatIds inp.sendOk inp.store inp.queryFails
      inp.uids n d hd with ⟨t, ht, hc, hid, _, _⟩
    exact ⟨t, ht, hc, hid⟩

/-- Witness for C8: on a store holding the completed `taskDone` and the
pending `taskA`, the query excludes `taskDone`, and the dispatch of the
healthy tick traces back to a non-completed stored task. -/
theorem completed_tasks_never_dispatched_witness :
    taskDone ∉ userQuery [taskDone, taskA] "u1" ∧
    (∃ t, t ∈ [taskDone, taskA] ∧ t.completed = false ∧ ("t1" : String) = t.id) :=
  ⟨fun hmem =>
    absurd (((completed_tasks_never_dispatched sampleParse
        ⟨0, ["u1"], [taskDone, taskA], [], allSendOk, noFail⟩ []).1 "u1" taskDone).mp
        hmem).2.2 (by decide),
    (completed_tasks_never_dispatched sampleParse
        ⟨0, ["u1"], [taskDone, taskA], [], allSendOk, noFail⟩ []).2
      ⟨"t1", "T100", []⟩ (by decide)⟩

/-- The ledger update of a tick does not depend on the chat bindings nor on
the per-chat send outcomes: a send failure, or an owner with zero bound
chats, never withholds the mark. -/
theorem runUsers_fst_indep (pd : String → Option Int) (now : Int) (store : List Task)
    (qf : String → Bool) (us : List String) (chats chats' : List ChatBinding)
    (f f' : String → Bool) :
    ∀ n : List String,
      (runUsers pd now chats f store qf us n).1
        = (runUsers pd now chats' f' store qf us n).1 := by
  induction us with
  | nil => intro n; simp [runUsers]
  | cons u us ih =>
    intro n
    simp only [runUsers]
    split
    · rfl
    · rw [processTasks_fst_indep pd now u chats chats' f f' (userQuery store u) n]
      exact ih _

/-- C9: within one run the dedup ledger is append-only — a tick only ever
appends to `global.notifiedTasks`; the resulting ledger is independent of
the chat bindings and of per-chat send outcomes (a send failure or a
zero-channel owner never rolls back or withholds the mark); and a task id
already in the ledger is never dispatched again by the tick. -/
theorem ledger_append_only (pd : String → Option Int) (inp : TickInput) (n : List String) :
    (∃ extra, (tick pd inp n).1 = n ++ extra) ∧
    (∀ (chats : List ChatBinding) (f : String → Bool),
      (tick pd ⟨inp.now, inp.uids, inp.store, chats, f, inp.queryFails⟩ n).1
        = (tick pd inp n).1) ∧
    (∀ x ∈ n, ∀ d ∈ (tick pd inp n).2, d.taskId ≠ x) := by
  refine ⟨?_, ?_, ?_⟩
  · have h := runUsers_fst pd inp.now inp.chatIds inp.sendOk inp.store inp.queryFails
      inp.uids n
    exact ⟨_, h⟩
  · intro chats f
    exact runUsers_fst_indep pd inp.now inp.store inp.queryFails inp.uids chats inp.chatIds
      f inp.sendOk n
  · intro x hx d hd
    rcases runUsers_dispatch_src pd inp.now inp.chatIds inp.sendOk inp.store inp.queryFails
      inp.uids n d hd with ⟨_, _, _, _, _, hnot⟩
    exact fun hEq => hnot (hEq ▸ hx)

/-- Witness for C9: a tick run against a pre-seeded ledger `["t9"]` only
appends, yields the same ledger under altered chat bindings and send
outcomes, and never dispatches the pre-seeded id. -/
theorem ledger_append_only_witness :
    (∃ extra, (tick sampleParse tickHealthyQuery ["t9"]).1 = ["t9"] ++ extra) ∧
    (tick sampleParse ⟨tickHealthyQuery.now, tickHealthyQuery.uids, tickHealthyQuery.store,
        [⟨"u2", "c7"⟩], (fun _ => false), tickHealthyQuery.queryFails⟩ ["t9"]).1
      = (tick sampleParse tickHealthyQuery ["t9"]).1 ∧
    (⟨"t2", "T100", []⟩ : Dispatch).taskId ≠ "t9" :=
  ⟨(ledger_append_only sampleParse tickHealthyQuery ["t9"]).1,
    (ledger_append_only sampleParse tickHealthyQuery ["t9"]).2.1 [⟨"u2", "c7"⟩]
      (fun _ => false),
    (ledger_append_only sampleParse tickHealthyQuery ["t9"]).2.2 "t9" (by decide)
      ⟨"t2", "T100", []⟩ (by decide)⟩

/-- C6 (counterexample): the claim says the create path and the update path
normalize a time-less deadline to the same fixed default local
time-of-day.  On the concrete date-only input `"2025-06-01"` the create
path stores `"2025-06-01T09:00:00"` while the update path stores
`"2025-06-01T00:00:00.000Z"` — two different values. -/
theorem normalize_paths_counterexample :
    postNormalizeDeadline "2025-06-01" = "2025-06-01T09:00:00" ∧
    patchNormalizeDeadline (fun s => s) "2025-06-01" = "2025-06-01T00:00:00.000Z" ∧
    postNormalizeDeadline "2025-06-01" ≠ patchNormalizeDeadline (fun s => s) "2025-06-01" := by
  refine ⟨by decide, by decide, by decide⟩

/-- C6 (amended): for every non-empty deadline lacking a time component,
the create path appends the local-time suffix `"T09:00:00"` while the
update path appends the UTC suffix `"T00:00:00.000Z"`; the two stored
deadlines always differ, whatever `toISOString` does. -/
theorem normalize_paths_differ (d : String) (hne : d ≠ "")
    (hT : containsChar d 'T' = false) :
    postNormalizeDeadline d = d ++ "T09:00:00" ∧
    (∀ isoOf : String → String, patchNormalizeDeadline isoOf d = d ++ "T00:00:00.000Z") ∧
    (∀ isoOf : String → String, postNormalizeDeadline d ≠ patchNormalizeDeadline isoOf d) := by
  have hpost : postNormalizeDeadline d = d ++ "T09:00:00" := by
    simp [postNormalizeDeadline, hT]
  have hpatch : ∀ isoOf : String → String,
      patchNormalizeDeadline isoOf d = d ++ "T00:00:00.000Z" := by
    intro isoOf
    simp [patchNormalizeDeadline, hne, hT]
  refine ⟨hpost, hpatch, fun isoOf hEq => ?_⟩
  rw [hpost, hpatch isoOf] at hEq
  have hlen := congrArg String.length hEq
  rw [String.length_append, String.length_append] at hlen
  have h9 : ("T09:00:00" : String).length = 9 := rfl
  have h15 : ("T00:00:00.000Z" : String).length = 14 := rfl
  omega

/-- Witness for C6 (amended): the date-only input `"2025-06-01"`. -/
theorem normalize_paths_differ_witness :
    postNormalizeDeadline "2025-06-01" = "2025-06-01" ++ "T09:00:00" ∧
    patchNormalizeDeadline (fun s => s) "2025-06-01" = "2025-06-01" ++ "T00:00:00.000Z" ∧
    postNormalizeDeadline "2025-06-01" ≠ patchNormalizeDeadline (fun s => s) "2025-06-01" :=
  ⟨(normalize_paths_differ "2025-06-01" (by decide) (by decide)).1,
    (normalize_paths_differ "2025-06-01" (by decide) (by decide)).2.1 (fun s => s),
    (normalize_paths_differ "2025-06-01" (by decide) (by decide)).2.2 (fun s => s)⟩

/-! ## Helper lemmas about the identity-binding registry -/

/-- Updating the first entry of a channel that is present makes that
channel resolve to the new owner id. -/
theorem resolveUid_updateFirstUid (c u : String) (chats : List ChatBinding) :
    (chats.find? (fun x => x.chatId == c)).isSome = true →
    resolveUid c (updateFirstUid chats c u) = some u := by
  induction chats with
  | nil => intro h; simp at h
  | cons b bs ih =>
    intro h
    by_cases hb : (b.chatId == c) = true
    · simp [updateFirstUid, hb, resolveUid]
    · have hcons : updateFirstUid (b :: bs) c u = b :: updateFirstUid bs c u := by
        simp [updateFirstUid, hb]
      have hf1 : List.find? (fun x => x.chatId == c) (b :: bs)
          = List.find? (fun x => x.chatId == c) bs := List.find?_cons_of_neg _ hb
      have hf2 : List.find? (fun x => x.chatId == c) (b :: updateFirstUid bs c u)
          = List.find? (fun x => x.chatId == c) (updateFirstUid bs c u) :=
        List.find?_cons_of_neg _ hb
      rw [hf1] at h
      rw [hcons]
      simp only [resolveUid, hf2]
      simpa [resolveUid] using ih h

/-- Updating the entry of a different channel does not change what a
channel resolves to. -/
theorem resolveUid_updateFirstUid_ne (c c' u : String) (hne : c' ≠ c)
    (chats : List ChatBinding) :
    resolveUid c (updateFirstUid chats c' u) = resolveUid c chats := by
  induction chats with
  | nil => simp [updateFirstUid]
  | cons b bs ih =>
    by_cases hb : (b.chatId == c') = true
    · have hbc : (b.chatId == c) = false := by
        have : b.chatId = c' := by simpa using hb
        simp [this, hne]
      simp [updateFirstUid, hb, resolveUid, hbc]
    · by_cases hbc : (b.chatId == c) = true
      · simp [updateFirstUid, hb, resolveUid, hbc]
      · have hcons : updateFirstUid (b :: bs) c' u = b :: updateFirstUid bs c' u := by
          simp [updateFirstUid, hb]
        have hf1 : List.find? (fun x => x.chatId == c) (b :: bs)
            = List.find? (fun x => x.chatId == c) bs := List.find?_cons_of_neg _ hbc
        have hf2 : List.find? (fun x => x.chatId == c) (b :: updateFirstUid bs c' u)
            = List.find? (fun x => x.chatId == c) (updateFirstUid bs c' u) :=
          List.find?_cons_of_neg _ hbc
        rw [hcons]
        simp only [resolveUid, hf1, hf2]
        simpa [resolveUid] using ih

/-- Appending entries never changes what an already-bound channel resolves
to. -/
theorem resolveUid_append_of_some (c u : String) (chats l : List ChatBinding)
    (h : resolveUid c chats = some u) :
    resolveUid c (chats ++ l) = some u := by
  simp only [resolveUid] at h ⊢
  rcases Option.map_eq_some'.mp h with ⟨e, he, heu⟩
  rw [List.find?_append, he]
  simpa using heu

/-- A bot `/start` carrying an owner id leaves the sending channel bound to
exactly that owner id. -/
theorem resolveUid_applyBotStart (c u : String) (chats : List ChatBinding) :
    resolveUid c (applyBotStart chats c (some u)) = some u := by
  rcases hf : chats.find? (fun x => x.chatId == c) with _ | e
  · simp only [applyBotStart, hf]
    have hnone : resolveUid c chats = none := by simp [resolveUid, hf]
    simp [resolveUid, List.find?_append, hf]
  · simp only [applyBotStart, hf]
    by_cases heu : (e.uid == u) = true
    · have : e.uid = u := by simpa using heu
      simp [this, resolveUid, hf]
    · simp only [heu, if_false]
      exact resolveUid_updateFirstUid c u chats (by simp [hf])

/-- A bot `/start` for another channel, or one carrying no owner id,
preserves an existing binding. -/
theorem resolveUid_applyBotStart_preserve (c c' u : String) (p : Option String)
    (chats : List ChatBinding) (hu : resolveUid c chats = some u)
    (hcase : c' ≠ c ∨ p = none) :
    resolveUid c (applyBotStart chats c' p) = some u := by
  rcases hf : chats.find? (fun x => x.chatId == c') with _ | e
  · simp only [applyBotStart, hf]
    exact resolveUid_append_of_some c u chats _ hu
  · simp only [applyBotStart, hf]
    rcases p with _ | u'
    · exact hu
    · by_cases heu : (e.uid == u') = true
      · simpa [heu] using hu
      · simp only [heu, Bool.false_eq_true, if_false]
        rcases hcase with hne | hnone
        · rw [resolveUid_updateFirstUid_ne c c' u' hne chats]
          exact hu
        · exact absurd hnone (by simp)

/-- Bot binds that supply no owner id for channel `c` preserve `c`'s
binding. -/
theorem resolveUid_applyBotOps_preserve (c u : String)
    (ops : List (String × Option String)) :
    ∀ chats : List ChatBinding, lastSuppliedUid c ops = none →
      resolveUid c chats = some u → resolveUid c (applyBotOps chats ops) = some u := by
  induction ops with
  | nil => intro chats _ hu; exact hu
  | cons op rest ih =>
    intro chats hlast hu
    rcases op with ⟨c₀, p₀⟩
    have hrest : lastSuppliedUid c rest = none := by
      simp only [lastSuppliedUid] at hlast
      rcases h : lastSuppliedUid c rest with _ | u'
      · rfl
      · rw [h] at hlast; exact absurd hlast (by simp)
    have hop : c₀ ≠ c ∨ p₀ = none := by
      simp only [lastSuppliedUid, hrest] at hlast
      by_cases hc : (c₀ == c) = true
      · right; simpa [hc] using hlast
      · left; simpa using hc
    exact ih (applyBotStart chats c₀ p₀) hrest
      (resolveUid_applyBotStart_preserve c c₀ u p₀ chats hu hop)

/-- C7 (counterexample): channel `"c1"` is first bound to `"u1"` by the bot
command; the authenticated API then binds it to `"u2"` — the most recent
bind supplying an owner id — yet the stored owner id remains `"u1"`: the
API path rejects an already-connected channel instead of overwriting it. -/
theorem bind_lww_counterexample :
    resolveUid "c1" ((applyApiConnect (applyBotStart [] "c1" (some "u1")) "u2" "c1").1)
      = some "u1" ∧
    resolveUid "c1" ((applyApiConnect (applyBotStart [] "c1" (some "u1")) "u2" "c1").1)
      ≠ some "u2" ∧
    (applyApiConnect (applyBotStart [] "c1" (some "u1")) "u2" "c1").2 = false := by
  refine ⟨by decide, by decide, by decide⟩

/-- C7 (amended): among bot `/start` binds, last write wins — after any
sequence of bot binds, a channel resolves to the owner id of the most
recent bind that supplied one; the authenticated API bind, however, is
rejected (`400 Already connected`) on a channel that already has any
binding and leaves the registry unchanged, so it overwrites nothing. -/
theorem bind_last_write_wins (chats : List ChatBinding)
    (ops : List (String × Option String)) (c u : String) :
    (lastSuppliedUid c ops = some u →
      resolveUid c (applyBotOps chats ops) = some u) ∧
    (∀ u' : String, resolveUid c chats = some u →
      applyApiConnect chats u' c = (chats, false)) := by
  constructor
  · induction ops generalizing chats with
    | nil => intro h; simp [lastSuppliedUid] at h
    | cons op rest ih =>
      intro h
      rcases op with ⟨c₀, p₀⟩
      rcases hrest : lastSuppliedUid c rest with _ | u'
      · have hc : (c₀ == c) = true ∧ p₀ = some u := by
          simp only [lastSuppliedUid, hrest] at h
          by_cases hc : (c₀ == c) = true
          · exact ⟨hc, by simpa [hc] using h⟩
          · rw [if_neg hc] at h; exact absurd h (by simp)
        have hceq : c₀ = c := by simpa using hc.1
        subst hceq
        rw [hc.2]
        exact resolveUid_applyBotOps_preserve c₀ u rest (applyBotStart chats c₀ (some u))
          hrest (resolveUid_applyBotStart c₀ u chats)
      · have huu : u' = u := by
          simp only [lastSuppliedUid, hrest] at h
          simpa using h
        subst huu
        exact ih (applyBotStart chats c₀ p₀) hrest
  · intro u' hu
    simp only [resolveUid] at hu
    rcases Option.map_eq_some'.mp hu with ⟨e, he, _⟩
    have hpred : (e.chatId == c) = true := by
      have := List.find?_some he
      simpa using this
    have hany : chats.any (fun x => x.chatId == c) = true :=
      List.any_eq_true.mpr ⟨e, List.mem_of_find?_eq_some he, hpred⟩
    simp [applyApiConnect, hany]

/-- Witness for C7 (amended): three bot binds to `"c1"` — first `"u1"`,
then a payload-less `/start`, then `"u2"` — leave the channel bound to
`"u2"`, the most recent supplied owner id; and an API bind on the channel
already bound to `"u1"` is rejected unchanged. -/
theorem bind_last_write_wins_witness :
    resolveUid "c1" (applyBotOps [] [("c1", some "u1"), ("c1", none), ("c1", some "u2")])
      = some "u2" ∧
    applyApiConnect [⟨"u1", "c1"⟩] "u2" "c1" = ([⟨"u1", "c1"⟩], false) :=
  ⟨(bind_last_write_wins [] [("c1", some "u1"), ("c1", none), ("c1", some "u2")]
      "c1" "u2").1 (by decide),
    (bind_last_write_wins [⟨"u1", "c1"⟩] [] "c1" "u1").2 "u2" (by decide)⟩

/-- C4: a locally successful task delete issues exactly one calendar
delete call carrying the task's stored event id when one is present, and
no calendar call at all when none is stored.  (The calendar mirror is
modelled from the spec, §4.5, as it is absent from the source tree.) -/
theorem delete_calendar_calls (store : List MirrorTask) (id uid : String) (t : MirrorTask)
    (hfind : store.find? (fun x => x.id == id && x.uid == uid) = some t) :
    (deleteTaskWithMirror store id uid).1 = .ok ∧
    (∀ e, t.externalEventId = some e → (deleteTaskWithMirror store id uid).2.2 = [e]) ∧
    (t.externalEventId = none → (deleteTaskWithMirror store id uid).2.2 = []) := by
  refine ⟨?_, ?_, ?_⟩
  · simp [deleteTaskWithMirror, hfind]
  · intro e he
    simp [deleteTaskWithMirror, hfind, calendarOnDelete, he]
  · intro hnone
    simp [deleteTaskWithMirror, hfind, calendarOnDelete, hnone]

/-- Witness for C4: deleting a task holding event id `"ev9"` issues exactly
the calendar delete call `["ev9"]`; deleting one with no event id issues
none. -/
theorem delete_calendar_calls_witness :
    (deleteTaskWithMirror [⟨"t1", "u1", some "ev9"⟩] "t1" "u1").2.2 = ["ev9"] ∧
    (deleteTaskWithMirror [⟨"t1", "u1", none⟩] "t1" "u1").2.2 = [] :=
  ⟨(delete_calendar_calls [⟨"t1", "u1", some "ev9"⟩] "t1" "u1" ⟨"t1", "u1", some "ev9"⟩
      (by decide)).2.1 "ev9" rfl,
    (delete_calendar_calls [⟨"t1", "u1", none⟩] "t1" "u1" ⟨"t1", "u1", none⟩
      (by decide)).2.2 rfl⟩

/-! ## Helper lemmas about the task routes -/

/-- `updateOne` by `_id` keeps every task with a different id unchanged. -/
theorem mem_updateFirstTask_of_ne (id : String) (f : Task → Task) (ts : List Task) :
    ∀ t' ∈ ts, t'.id ≠ id → t' ∈ updateFirstTask ts id f := by
  induction ts with
  | nil => intro t' h; simp at h
  | cons t ts ih =>
    intro t' ht' hne
    by_cases hid : (t.id == id) = true
    · simp only [updateFirstTask, hid, if_true]
      rcases List.mem_cons.mp ht' with h | h
      · exact absurd (h ▸ (by simpa using hid)) hne
      · exact List.mem_cons_of_mem _ h
    · simp only [updateFirstTask, hid, Bool.false_eq_true, if_false]
      rcases List.mem_cons.mp ht' with h | h
      · exact h ▸ List.mem_cons_self ..
      · exact List.mem_cons_of_mem _ (ih t' h hne)

/-- `deleteOne` by `_id` keeps every task with a different id. -/
theorem mem_eraseP_of_ne (id : String) (ts : List Task) :
    ∀ t' ∈ ts, t'.id ≠ id → t' ∈ ts.eraseP (fun x => x.id == id) := by
  induction ts with
  | nil => intro t' h; simp at h
  | cons t ts ih =>
    intro t' ht' hne
    by_cases hid : (t.id == id) = true
    · have hE : List.eraseP (fun x => x.id == id) (t :: ts) = ts :=
        List.eraseP_cons_of_pos hid
      rw [hE]
      rcases List.mem_cons.mp ht' with h | h
      · exact absurd (h ▸ (by simpa using hid)) hne
      · exact h
    · have hE : List.eraseP (fun x => x.id == id) (t :: ts)
          = t :: List.eraseP (fun x => x.id == id) ts :=
        List.eraseP_cons_of_neg hid
      rw [hE]
      rcases List.mem_cons.mp ht' with h | h
      · exact h ▸ List.mem_cons_self ..
      · exact List.mem_cons_of_mem _ (ih t' h hne)

/-- With `_id`s unique (Mongo's invariant), `deleteOne` by `_id` removes
the task carrying that id from the store. -/
theorem not_mem_eraseP_of_unique (id : String) (ts : List Task) :
    (ts.map Task.id).Nodup → ∀ t ∈ ts, t.id = id →
      t ∉ ts.eraseP (fun x => x.id == id) := by
  induction ts with
  | nil => intro _ t h; simp at h
  | cons t₀ ts ih =>
    intro hnd t ht htid
    have hnd' : t₀.id ∉ List.map Task.id ts ∧ (List.map Task.id ts).Nodup := by
      rw [List.map_cons] at hnd
      exact List.nodup_cons.mp hnd
    by_cases hid : (t₀.id == id) = true
    · have hE : List.eraseP (fun x => x.id == id) (t₀ :: ts) = ts :=
        List.eraseP_cons_of_pos hid
      rw [hE]
      have ht₀id : t₀.id = id := by simpa using hid
      rcases List.mem_cons.mp ht with h | h
      · subst h
        intro hmem
        exact hnd'.1 (List.mem_map_of_mem Task.id hmem)
      · intro _
        apply hnd'.1
        have hmap : t.id ∈ List.map Task.id ts := List.mem_map_of_mem Task.id h
        rwa [htid, ← ht₀id] at hmap
    · have hE : List.eraseP (fun x => x.id == id) (t₀ :: ts)
          = t₀ :: List.eraseP (fun x => x.id == id) ts :=
        List.eraseP_cons_of_neg hid
      rw [hE]
      have ht₀id : t₀.id ≠ id := by simpa using hid
      rcases List.mem_cons.mp ht with h | h
      · exact absurd (h ▸ htid) ht₀id
      · intro hmem
        rcases List.mem_cons.mp hmem with hh | hh
        · exact ht₀id (hh ▸ htid)
        · exact ih hnd'.2 t h htid hh

/-- C10: for a syntactically valid id, a `PATCH` or `DELETE` on
`/api/tasks/:id` answers 404 and leaves the store unchanged when the caller
owns no task with that `_id`; with unique `_id`s a successful `DELETE`
removes exactly the one task with that id — every other task, in
particular every task of any other owner, survives both routes unchanged,
and nothing new appears. -/
theorem task_routes_owner_scoped (store : List Task) (id uid : String)
    (isoOf : String → String) (p : TaskPatch) :
    (findTask store id uid = none →
      patchTaskRoute store true id uid isoOf p = (.notFound, store) ∧
      deleteTaskRoute store true id uid = (.notFound, store)) ∧
    ((store.map Task.id).Nodup → ∀ t ∈ store, t.id = id → t.uid = uid →
      (deleteTaskRoute store true id uid).1 = .ok ∧
      t ∉ (deleteTaskRoute store true id uid).2 ∧
      (∀ t' ∈ store, t'.id ≠ id →
        t' ∈ (deleteTaskRoute store true id uid).2 ∧
        t' ∈ (patchTaskRoute store true id uid isoOf p).2) ∧
      (∀ t' ∈ (deleteTaskRoute store true id uid).2, t' ∈ store)) := by
  constructor
  · intro hnone
    constructor
    · simp [patchTaskRoute, hnone]
    · simp [deleteTaskRoute, hnone]
  · intro hnd t ht htid htuid
    have hsome : (findTask store id uid).isSome = true := by
      rw [findTask, List.find?_isSome]
      exact ⟨t, ht, by simp [htid, htuid]⟩
    rcases Option.isSome_iff_exists.mp hsome with ⟨t₀, hfind⟩
    refine ⟨?_, ?_, ?_, ?_⟩
    · simp [deleteTaskRoute, hfind]
    · have herase := not_mem_eraseP_of_unique id store hnd t ht htid
      simpa [deleteTaskRoute, hfind] using herase
    · intro t' ht' hne
      constructor
      · have := mem_eraseP_of_ne id store t' ht' hne
        simpa [deleteTaskRoute, hfind] using this
      · have := mem_updateFirstTask_of_ne id (applyTaskPatch isoOf p) store t' ht' hne
        simpa [patchTaskRoute, hfind] using this
    · intro t' ht'
      have hsub : store.eraseP (fun x => x.id == id) ⊆ store := List.eraseP_subset _
      exact hsub (by simpa [deleteTaskRoute, hfind] using ht')

/-- Witness for C10: on the two-owner store `[taskA, taskU2]` (unique ids),
a lookup of the unknown id `"t9"` 404s both routes without touching the
store, and deleting `u1`'s `"t1"` removes it while `u2`'s task survives
both routes. -/
theorem task_routes_owner_scoped_witness :
    patchTaskRoute [taskA, taskU2] true "t9" "u1" (fun s => s)
        ⟨"X", "Y", none, none⟩ = (.notFound, [taskA, taskU2]) ∧
    deleteTaskRoute [taskA, taskU2] true "t9" "u1" = (.notFound, [taskA, taskU2]) ∧
    (deleteTaskRoute [taskA, taskU2] true "t1" "u1").1 = .ok ∧
    taskA ∉ (deleteTaskRoute [taskA, taskU2] true "t1" "u1").2 ∧
    taskU2 ∈ (deleteTaskRoute [taskA, taskU2] true "t1" "u1").2 :=
  ⟨((task_routes_owner_scoped [taskA, taskU2] "t9" "u1" (fun s => s)
      ⟨"X", "Y", none, none⟩).1 (by decide)).1,
    ((task_routes_owner_scoped [taskA, taskU2] "t9" "u1" (fun s => s)
      ⟨"X", "Y", none, none⟩).1 (by decide)).2,
    ((task_routes_owner_scoped [taskA, taskU2] "t1" "u1" (fun s => s)
      ⟨"X", "Y", none, none⟩).2 (by decide) taskA (by decide) rfl rfl).1,
    ((task_routes_owner_scoped [taskA, taskU2] "t1" "u1" (fun s => s)
      ⟨"X", "Y", none, none⟩).2 (by decide) taskA (by decide) rfl rfl).2.1,
    (((task_routes_owner_scoped [taskA, taskU2] "t1" "u1" (fun s => s)
      ⟨"X", "Y", none, none⟩).2 (by decide) taskA (by decide) rfl rfl).2.2.1 taskU2
        (by decide) (by decide)).1⟩

end Overlax
